import Mathlib

/-!
Shallow embedding of the HackBits hackathon-registration backend
(team registration, payment-proof upload, admin payment verification,
admin statistics), translated from:

Embedded operations and their sources:
- registerTeam        : POST /api/teams/register       (src/routes/teamRoutes.js)
- uploadPayment       : POST /api/teams/upload-payment (src/routes/teamRoutes.js)
- setPaymentStatus    : PUT /api/admin/teams/:teamId/payment-status
- computeStats        : GET /api/admin/stats
- Team document       : teamSchema (Mongoose model)

The MongoDB document store is modelled as an in-memory list of Team
records plus a static list of User records; Mongo object ids are
modelled by a fresh-id counter.  External effects (Cloudinary
compression/upload, best-effort deletion) are modelled by explicit
outcome parameters and an emitted list of deletion requests.
-/

deriving instance DecidableEq for Except

/-- Payment status enum of teamSchema: pending | verified | rejected. -/
inductive PaymentStatus where
  | pending
  | verified
  | rejected
  deriving DecidableEq, Repr

/-- Approval status enum of teamSchema: pending | approved | rejected. -/
inductive ApprovalStatus where
  | pending
  | approved
  | rejected
  deriving DecidableEq, Repr

/-- Declared team size class: Solo | Duo | Team (teamSchema enum). -/
inductive TeamSize where
  | Solo
  | Duo
  | Team
  deriving DecidableEq, Repr

/-- A registered platform user (User model, fields used by the core). -/
structure User where
  id : Nat
  email : String
  registrationNumber : String
  deriving DecidableEq, Repr

/-- A member entry of the register request body: an email plus
registration-number pair identifying an existing user. -/
structure MemberIdent where
  email : String
  registrationNumber : String
  deriving DecidableEq, Repr

/-- A persisted team document (teamSchema). -/
structure Team where
  id : Nat
  teamName : String
  leader : Nat
  members : List Nat
  problemStatement : String
  teamSize : TeamSize
  status : ApprovalStatus
  registrationNumber : String
  paymentScreenshot : Option String
  paymentScreenshotCloudinaryId : Option String
  paymentStatus : PaymentStatus
  deriving DecidableEq, Repr

/-- The document store: users (static for this core), teams, and a
fresh-id counter standing in for Mongo object-id generation. -/
structure DB where
  users : List User
  teams : List Team
  nextTeamId : Nat
  deriving DecidableEq, Repr

/-- The Mongo membership filter used throughout the routes:
{ $or: [ { leader: uid }, { members: uid } ] }. -/
def userInTeamB (t : Team) (uid : Nat) : Bool :=
  t.leader == uid || t.members.contains uid

/-- JS String.prototype.padStart with a single-character pad string:
pad on the left with copies of the character up to the target length. -/
def padStart (s : String) (targetLength : Nat) (c : Char) : String :=
  (List.replicate (targetLength - s.length) c).asString ++ s

/-- Registration number allocated when the store already holds
teamCount teams: TEAM + String(teamCount + 1).padStart(4, "0"). -/
def regNumberFor (teamCount : Nat) : String :=
  "TEAM" ++ padStart (toString (teamCount + 1)) 4 '0'

/-- Errors of POST /api/teams/register, one per distinct early return. -/
inductive RegisterError where
  | teamNameExists
  | alreadyInTeam
  | soloExtraMembers
  | duoMemberCount
  | teamMemberCount
  | membersNotFound
  | memberAlreadyInTeam
  deriving DecidableEq, Repr

/-- Response message of each register error, verbatim from the route. -/
def registerErrorMessage : RegisterError → String
  | .teamNameExists => "Team name already exists. Please choose a different name."
  | .alreadyInTeam => "You are already registered in a team"
  | .soloExtraMembers => "Solo teams cannot have additional members"
  | .duoMemberCount => "Duo teams must have exactly 1 additional member"
  | .teamMemberCount => "Teams must have 2-4 additional members"
  | .membersNotFound => "One or more members not found. Please ensure all members are registered on the platform."
  | .memberAlreadyInTeam => "One or more members are already in a team"

/-- HTTP status of each register error (all early returns use 400). -/
def registerErrorHttpStatus : RegisterError → Nat := fun _ => 400

/-- The User.find query of the register route: every user matching some
requested (email, registrationNumber) pair. -/
def findMemberUsers (users : List User) (members : List MemberIdent) : List User :=
  users.filter fun u =>
    members.any fun m =>
      u.email == m.email && u.registrationNumber == m.registrationNumber

/-- POST /api/teams/register. Checks, in source order: duplicate team
name; requester already leader/member of a team; member count against
the declared size class; member resolution (count match); resolved
members already in teams. On success appends the new team (Mongo save)
and returns it; on error the store is returned unchanged, since every
early return happens before the single save. -/
def registerTeam (db : DB) (requesterId : Nat) (teamName : String)
    (members : List MemberIdent) (problemStatement : String)
    (teamSize : TeamSize) : Except RegisterError Team × DB :=
  if db.teams.any (fun t => t.teamName == teamName) then
    (.error .teamNameExists, db)
  else if db.teams.any (fun t => userInTeamB t requesterId) then
    (.error .alreadyInTeam, db)
  else if teamSize = .Solo ∧ 0 < members.length then
    (.error .soloExtraMembers, db)
  else if teamSize = .Duo ∧ members.length ≠ 1 then
    (.error .duoMemberCount, db)
  else if teamSize = .Team ∧ (members.length < 2 ∨ 4 < members.length) then
    (.error .teamMemberCount, db)
  else if 0 < members.length ∧
      (findMemberUsers db.users members).length ≠ members.length then
    (.error .membersNotFound, db)
  else if 0 < members.length ∧
      db.teams.any (fun t =>
        (findMemberUsers db.users members).any fun u => userInTeamB t u.id) then
    (.error .memberAlreadyInTeam, db)
  else
    let memberUserIds := (findMemberUsers db.users members).map User.id
    let team : Team :=
      { id := db.nextTeamId
        teamName := teamName
        leader := requesterId
        members := memberUserIds
        problemStatement := problemStatement
        teamSize := teamSize
        status := .pending
        registrationNumber := regNumberFor db.teams.length
        paymentScreenshot := none
        paymentScreenshotCloudinaryId := none
        paymentStatus := .pending }
    (.ok team, { db with teams := db.teams ++ [team],
                         nextTeamId := db.nextTeamId + 1 })

/-- Mongoose document save: replace the stored team having this id. -/
def saveTeam (db : DB) (t2 : Team) : DB :=
  { db with teams := db.teams.map fun t => if t.id == t2.id then t2 else t }

/-- Result of compressAndUploadImage when it succeeds (url, public id,
size metadata from Cloudinary). -/
structure UploadResult where
  url : String
  cloudinaryId : String
  originalSize : Nat
  compressedSize : Nat
  deriving DecidableEq, Repr

/-- Errors of POST /api/teams/upload-payment, one per early return. -/
inductive UploadError where
  | noFile
  | notFoundOrUnauthorized
  | uploadFailed
  deriving DecidableEq, Repr

/-- HTTP status of each upload-payment error path. -/
def uploadErrorHttpStatus : UploadError → Nat
  | .noFile => 400
  | .notFoundOrUnauthorized => 404
  | .uploadFailed => 500

/-- Response message of each upload-payment error path, verbatim.
compressAndUploadImage throws on any compression/upload failure, so the
failure surfaces through the route's catch block. -/
def uploadErrorMessage : UploadError → String
  | .noFile => "No file uploaded"
  | .notFoundOrUnauthorized => "Team not found or you are not authorized"
  | .uploadFailed => "Server error during payment upload"

/-- An uploaded multipart file (only presence matters to the route). -/
structure PaymentFile where
  originalname : String
  size : Nat
  deriving DecidableEq, Repr

/-- Full outcome of an upload-payment request: the response, the store
afterwards, and the Cloudinary deletion requests that were issued. -/
structure UploadOutcome where
  result : Except UploadError Team
  db : DB
  deletionRequests : List String
  deriving DecidableEq

/-- POST /api/teams/upload-payment. Requires a file; looks the team up
with the combined filter { _id: teamId, $or: [leader, members] } (a
single 404 covers both a missing team and a requester who is neither
leader nor member); requests best-effort deletion of the previous
screenshot; then compresses and uploads (outcome supplied as the
uploadOutcome parameter, error meaning the Cloudinary pipeline threw)
and, only on success, saves url, public id and paymentStatus :=
pending in one update. -/
def uploadPayment (db : DB) (requesterId : Nat) (teamId : Nat)
    (file : Option PaymentFile) (uploadOutcome : Except Unit UploadResult) :
    UploadOutcome :=
  match file with
  | none => ⟨.error .noFile, db, []⟩
  | some _ =>
    match db.teams.find? (fun t =>
        t.id == teamId && (t.leader == requesterId ||
          t.members.contains requesterId)) with
    | none => ⟨.error .notFoundOrUnauthorized, db, []⟩
    | some team =>
      let deletions := match team.paymentScreenshotCloudinaryId with
        | some oldId => [oldId]
        | none => []
      match uploadOutcome with
      | .error _ => ⟨.error .uploadFailed, db, deletions⟩
      | .ok r =>
        let team2 : Team :=
          { team with
            paymentScreenshot := some r.url
            paymentScreenshotCloudinaryId := some r.cloudinaryId
            paymentStatus := .pending }
        ⟨.ok team2, saveTeam db team2, deletions⟩

/-- Errors of PUT /api/admin/teams/:teamId/payment-status. -/
inductive AdminError where
  | invalidStatus
  | teamNotFound
  deriving DecidableEq, Repr

/-- HTTP status of each admin payment-status error path. -/
def adminErrorHttpStatus : AdminError → Nat
  | .invalidStatus => 400
  | .teamNotFound => 404

/-- Response message of each admin payment-status error path. -/
def adminErrorMessage : AdminError → String
  | .invalidStatus => "Invalid payment status"
  | .teamNotFound => "Team not found"

/-- Parse the request-body string into the payment-status enum; none
exactly when ["pending", "verified", "rejected"].includes fails. -/
def parsePaymentStatus (s : String) : Option PaymentStatus :=
  if s = "pending" then some .pending
  else if s = "verified" then some .verified
  else if s = "rejected" then some .rejected
  else none

/-- PUT /api/admin/teams/:teamId/payment-status. Validates the status
string first (before the team lookup), then finds the team by id and
saves the new status unconditionally, whatever the prior status. -/
def setPaymentStatus (db : DB) (teamId : Nat) (statusStr : String) :
    Except AdminError Team × DB :=
  match parsePaymentStatus statusStr with
  | none => (.error .invalidStatus, db)
  | some ps =>
    match db.teams.find? (fun t => t.id == teamId) with
    | none => (.error .teamNotFound, db)
    | some team =>
      let team2 : Team := { team with paymentStatus := ps }
      (.ok team2, saveTeam db team2)

/-- GET /api/admin/stats response. The verification rate is modelled in
tenths of a percent: ((verified / total) * 100).toFixed(1) of the route
becomes round(verified * 1000 / total), and 0 when there are no teams. -/
structure Stats where
  totalTeams : Nat
  verifiedPayments : Nat
  pendingPayments : Nat
  rejectedPayments : Nat
  totalUsers : Nat
  paymentVerificationRateTenths : Int
  deriving DecidableEq, Repr

/-- GET /api/admin/stats: countDocuments per payment status, total
users, and the percentage verification rate (one decimal place). -/
def computeStats (db : DB) : Stats :=
  let totalTeams := db.teams.length
  let verifiedPayments :=
    (db.teams.filter fun t => t.paymentStatus == .verified).length
  let pendingPayments :=
    (db.teams.filter fun t => t.paymentStatus == .pending).length
  let rejectedPayments :=
    (db.teams.filter fun t => t.paymentStatus == .rejected).length
  { totalTeams := totalTeams
    verifiedPayments := verifiedPayments
    pendingPayments := pendingPayments
    rejectedPayments := rejectedPayments
    totalUsers := db.users.length
    paymentVerificationRateTenths :=
      if 0 < totalTeams then
        round ((verifiedPayments * 1000 : ℚ) / totalTeams)
      else 0 }

/-!
Decimal rendering facts. Nat.repr (the semantics of the JS String(n)
conversion used for registration numbers) equals the accumulator-free
recursion natChars, and a zero-padded decimal string decodes back to
its number, giving injectivity of the registration-number format.
-/

/-- Accumulator-free form of the decimal rendering behind Nat.repr. -/
def natChars (n : Nat) : List Char :=
  if _h : n < 10 then [Nat.digitChar n]
  else natChars (n / 10) ++ [Nat.digitChar (n % 10)]
decreasing_by exact Nat.div_lt_self (by omega) (by omega)

theorem toDigitsCore_eq_natChars (fuel : Nat) :
    ∀ (n : Nat) (acc : List Char), n < fuel →
      Nat.toDigitsCore 10 fuel n acc = natChars n ++ acc := by
  induction fuel with
  | zero => intro n acc h; omega
  | succ fuel ih =>
    intro n acc h
    rw [Nat.toDigitsCore, natChars]
    by_cases h10 : n < 10
    · have hdiv : n / 10 = 0 := Nat.div_eq_of_lt h10
      have hmod : n % 10 = n := Nat.mod_eq_of_lt h10
      simp [hdiv, hmod, h10]
    · have hdiv : n / 10 ≠ 0 := by omega
      have hlt : n / 10 < fuel := by
        have h2 : n / 10 < n := Nat.div_lt_self (by omega) (by omega)
        omega
      rw [dif_neg h10]
      simp only [hdiv, if_false]
      rw [ih (n / 10) _ hlt, List.append_assoc, List.singleton_append]

theorem repr_eq_natChars (n : Nat) : toString n = (natChars n).asString := by
  show Nat.repr n = (natChars n).asString
  unfold Nat.repr Nat.toDigits
  rw [toDigitsCore_eq_natChars (n + 1) n [] (Nat.lt_succ_self n),
    List.append_nil]

/-- Numeric value of a decimal digit character. -/
def digitVal (c : Char) : Nat := c.toNat - 48

theorem digitVal_digitChar : ∀ k, k < 10 → digitVal (Nat.digitChar k) = k := by
  decide

/-- Decode a decimal character list to the number it denotes. -/
def decodeChars (l : List Char) : Nat :=
  l.foldl (fun acc c => acc * 10 + digitVal c) 0

theorem foldl_natChars (n : Nat) : ∀ acc : Nat,
    (natChars n).foldl (fun a c => a * 10 + digitVal c) acc
      = acc * 10 ^ (natChars n).length + n := by
  induction n using Nat.strong_induction_on with
  | _ n ih =>
    intro acc
    rw [natChars]
    by_cases h10 : n < 10
    · rw [dif_pos h10]
      simp [digitVal_digitChar n h10]
    · rw [dif_neg h10]
      rw [List.foldl_append,
        ih (n / 10) (Nat.div_lt_self (by omega) (by omega))]
      simp only [List.foldl_cons, List.foldl_nil, List.length_append,
        List.length_singleton]
      rw [digitVal_digitChar _ (Nat.mod_lt _ (by omega)), pow_succ,
        ← mul_assoc]
      generalize acc * 10 ^ (natChars (n / 10)).length = A
      omega

theorem decodeChars_pad (a n : Nat) :
    decodeChars (List.replicate a '0' ++ natChars n) = n := by
  unfold decodeChars
  rw [List.foldl_append]
  have h0 : (List.replicate a '0').foldl
      (fun acc c => acc * 10 + digitVal c) 0 = 0 := by
    induction a with
    | zero => rfl
    | succ a iha => rw [List.replicate_succ, List.foldl_cons]; simpa using iha
  rw [h0, foldl_natChars]
  simp

theorem padStart_data (s : String) (k : Nat) (c : Char) :
    (padStart s k c).data = List.replicate (k - s.length) c ++ s.data := by
  simp [padStart, List.asString]

theorem padded_toString_inj {m n : Nat}
    (h : padStart (toString m) 4 '0' = padStart (toString n) 4 '0') :
    m = n := by
  have hd := congrArg String.data h
  rw [padStart_data, padStart_data] at hd
  have hm : (toString m).data = natChars m := by rw [repr_eq_natChars]; rfl
  have hn : (toString n).data = natChars n := by rw [repr_eq_natChars]; rfl
  rw [hm, hn] at hd
  have := congrArg decodeChars hd
  rwa [decodeChars_pad, decodeChars_pad] at this

theorem regNumberFor_inj : Function.Injective regNumberFor := by
  intro a b h
  unfold regNumberFor at h
  have hd := congrArg String.data h
  simp only [String.data_append] at hd
  have hpad := List.append_cancel_left hd
  have := padded_toString_inj (String.ext hpad)
  omega

/-!
Inversion lemmas for the three mutating operations.
-/

/-- Property form of the size-class guard that a saved team satisfies. -/
def SizeOk (t : Team) : Prop :=
  (t.teamSize = TeamSize.Solo → t.members.length = 0) ∧
  (t.teamSize = TeamSize.Duo → t.members.length = 1) ∧
  (t.teamSize = TeamSize.Team → 2 ≤ t.members.length ∧ t.members.length ≤ 4)

/-- Everything a successful registration guarantees: the shape of the
created team, that every guard was passed, and the resulting store. -/
theorem registerTeam_ok {db : DB} {rid : Nat} {tn : String}
    {mems : List MemberIdent} {ps : String} {ts : TeamSize} {team : Team}
    (h : (registerTeam db rid tn mems ps ts).1 = Except.ok team) :
    team.id = db.nextTeamId ∧
    team.leader = rid ∧
    team.teamSize = ts ∧
    team.status = ApprovalStatus.pending ∧
    team.paymentStatus = PaymentStatus.pending ∧
    team.paymentScreenshot = none ∧
    team.paymentScreenshotCloudinaryId = none ∧
    team.registrationNumber = regNumberFor db.teams.length ∧
    team.members.length = mems.length ∧
    SizeOk team ∧
    (∀ t ∈ db.teams, userInTeamB t rid = false) ∧
    (∀ uid, userInTeamB team uid = true →
      ∀ t ∈ db.teams, userInTeamB t uid = false) := by
  unfold registerTeam at h
  split at h
  · simp at h
  · split at h
    · simp at h
    · split at h
      · simp at h
      · split at h
        · simp at h
        · split at h
          · simp at h
          · split at h
            · simp at h
            · split at h
              · simp at h
              · rename_i hname hreq hsolo hduo hteam hres hmemteam
                simp only [] at h
                injection h with h
                subst h
                have hreq2 : ∀ t ∈ db.teams, userInTeamB t rid = false := by
                  simpa only [List.any_eq_true, not_exists, not_and,
                    Bool.not_eq_true] using hreq
                have hlen : (findMemberUsers db.users mems).length =
                    mems.length := by
                  by_cases hpos : 0 < mems.length
                  · push_neg at hres
                    exact hres hpos
                  · have h0 : mems = [] := by
                      cases mems with
                      | nil => rfl
                      | cons a l => simp at hpos
                    subst h0
                    simp [findMemberUsers]
                refine ⟨rfl, rfl, rfl, rfl, rfl, rfl, rfl, rfl, ?_, ?_, hreq2, ?_⟩
                · simpa using hlen
                · unfold SizeOk
                  simp only [List.length_map, hlen]
                  push_neg at hsolo hduo hteam
                  refine ⟨?_, ?_, ?_⟩
                  · intro hts
                    subst hts
                    have := hsolo rfl
                    omega
                  · intro hts
                    subst hts
                    have := hduo rfl
                    omega
                  · intro hts
                    subst hts
                    have := hteam rfl
                    omega
                · intro uid hu t ht
                  simp only [userInTeamB, Bool.or_eq_true, beq_iff_eq,
                    List.contains, List.elem_eq_mem, decide_eq_true_eq] at hu
                  rcases hu with hu | hu
                  · subst hu
                    exact hreq2 t ht
                  · rcases List.mem_map.1 hu with ⟨u, humem, huid⟩
                    have hpos : 0 < mems.length := by
                      rcases Nat.eq_zero_or_pos mems.length with h0 | h0
                      · exfalso
                        have : mems = [] := by
                          cases mems with
                          | nil => rfl
                          | cons a l => simp at h0
                        subst this
                        simp [findMemberUsers] at humem
                      · exact h0
                    push_neg at hmemteam
                    have hfalse := hmemteam hpos
                    by_cases hb : userInTeamB t uid = true
                    · exfalso
                      have hex : (db.teams.any fun t2 =>
                          (findMemberUsers db.users mems).any fun u2 =>
                            userInTeamB t2 u2.id) = true := by
                        simp only [List.any_eq_true]
                        exact ⟨t, ht, u, humem, by rw [huid]; exact hb⟩
                      exact hfalse hex
                    · simpa using hb

/-- Either an error leaves the store untouched, or a team was created
and appended to the store. -/
theorem registerTeam_snd (db : DB) (rid : Nat) (tn : String)
    (mems : List MemberIdent) (ps : String) (ts : TeamSize) :
    (registerTeam db rid tn mems ps ts).2 = db ∨
    ∃ team, (registerTeam db rid tn mems ps ts).1 = Except.ok team ∧
      (registerTeam db rid tn mems ps ts).2 =
        { db with teams := db.teams ++ [team],
                  nextTeamId := db.nextTeamId + 1 } := by
  unfold registerTeam
  split
  · exact Or.inl rfl
  · split
    · exact Or.inl rfl
    · split
      · exact Or.inl rfl
      · split
        · exact Or.inl rfl
        · split
          · exact Or.inl rfl
          · split
            · exact Or.inl rfl
            · split
              · exact Or.inl rfl
              · exact Or.inr ⟨_, rfl, rfl⟩

/-- Either an upload error leaves the store untouched, or the looked-up
team was saved back with the new proof reference and pending status. -/
theorem uploadPayment_cases (db : DB) (rid tid : Nat)
    (file : Option PaymentFile) (oc : Except Unit UploadResult) :
    (uploadPayment db rid tid file oc).db = db ∨
    ∃ team r, oc = Except.ok r ∧
      db.teams.find? (fun t => t.id == tid &&
        (t.leader == rid || t.members.contains rid)) = some team ∧
      (uploadPayment db rid tid file oc).result = Except.ok
        { team with
          paymentScreenshot := some r.url
          paymentScreenshotCloudinaryId := some r.cloudinaryId
          paymentStatus := PaymentStatus.pending } ∧
      (uploadPayment db rid tid file oc).db = saveTeam db
        { team with
          paymentScreenshot := some r.url
          paymentScreenshotCloudinaryId := some r.cloudinaryId
          paymentStatus := PaymentStatus.pending } := by
  unfold uploadPayment
  cases file with
  | none => exact Or.inl rfl
  | some f =>
    cases hfind : db.teams.find? (fun t => t.id == tid &&
        (t.leader == rid || t.members.contains rid)) with
    | none => exact Or.inl rfl
    | some team =>
      cases oc with
      | error e => exact Or.inl rfl
      | ok r => exact Or.inr ⟨team, r, rfl, rfl, rfl, rfl⟩

/-- Either a payment-status error leaves the store untouched, or the
looked-up team was saved back with the parsed status. -/
theorem setPaymentStatus_cases (db : DB) (tid : Nat) (s : String) :
    (setPaymentStatus db tid s).2 = db ∨
    ∃ ps team, parsePaymentStatus s = some ps ∧
      db.teams.find? (fun t => t.id == tid) = some team ∧
      (setPaymentStatus db tid s).1 =
        Except.ok { team with paymentStatus := ps } ∧
      (setPaymentStatus db tid s).2 =
        saveTeam db { team with paymentStatus := ps } := by
  unfold setPaymentStatus
  cases hps : parsePaymentStatus s with
  | none => exact Or.inl rfl
  | some ps =>
    cases hfind : db.teams.find? (fun t => t.id == tid) with
    | none => exact Or.inl rfl
    | some team => exact Or.inr ⟨ps, team, rfl, rfl, rfl, rfl⟩

/-!
Reachable stores and the preserved invariant.
-/

/-- No user is leader or member of both teams. -/
def TeamDisjoint (a b : Team) : Prop :=
  ∀ uid, userInTeamB a uid = true → userInTeamB b uid = false

/-- The proof reference and its storage handle are both absent or both
present. -/
def ScreenshotPaired (t : Team) : Prop :=
  t.paymentScreenshot = none ↔ t.paymentScreenshotCloudinaryId = none

/-- Invariant preserved by every operation: distinct team ids below the
fresh counter, pairwise user-disjoint teams, size-class bounds,
paired screenshot fields, and sequentially formatted registration
numbers. -/
def StoreInv (db : DB) : Prop :=
  (db.teams.map Team.id).Nodup ∧
  (∀ t ∈ db.teams, t.id < db.nextTeamId) ∧
  db.teams.Pairwise TeamDisjoint ∧
  (∀ t ∈ db.teams, SizeOk t) ∧
  (∀ t ∈ db.teams, ScreenshotPaired t) ∧
  db.teams.map Team.registrationNumber =
    (List.range db.teams.length).map regNumberFor

theorem inv_init (users : List User) (nid : Nat) :
    StoreInv ⟨users, [], nid⟩ := by
  refine ⟨List.nodup_nil, ?_, List.Pairwise.nil, ?_, ?_, rfl⟩ <;> simp

/-- Saving a team that keeps its identity, composition and registration
number (only payment fields may change) preserves the invariant. -/
theorem inv_saveTeam {db : DB} {team team2 : Team} (hInv : StoreInv db)
    (hmem : team ∈ db.teams)
    (hid : team2.id = team.id)
    (hlead : team2.leader = team.leader)
    (hmems : team2.members = team.members)
    (hsize : team2.teamSize = team.teamSize)
    (hreg : team2.registrationNumber = team.registrationNumber)
    (hsp : ScreenshotPaired team2) :
    StoreInv (saveTeam db team2) := by
  obtain ⟨hnd, hlt, hpw, hsz, hpair, hregs⟩ := hInv
  have hkey : ∀ a ∈ db.teams,
      (if a.id == team2.id then team2 else a) = a ∨
      (a = team ∧ (if a.id == team2.id then team2 else a) = team2) := by
    intro a ha
    by_cases hc : a.id = team2.id
    · have : a = team :=
        List.inj_on_of_nodup_map hnd ha hmem (by rw [hc, hid])
      exact Or.inr ⟨this, by simp [hc]⟩
    · exact Or.inl (by simp [hc])
  have hidkeep : ∀ a ∈ db.teams,
      (if a.id == team2.id then team2 else a).id = a.id := by
    intro a ha
    rcases hkey a ha with hk | ⟨ha2, hk⟩
    · rw [hk]
    · rw [hk, hid, ha2]
  have hregkeep : ∀ a ∈ db.teams,
      (if a.id == team2.id then team2 else a).registrationNumber =
        a.registrationNumber := by
    intro a ha
    rcases hkey a ha with hk | ⟨ha2, hk⟩
    · rw [hk]
    · rw [hk, hreg, ha2]
  have huser : ∀ a ∈ db.teams, ∀ uid,
      userInTeamB (if a.id == team2.id then team2 else a) uid =
        userInTeamB a uid := by
    intro a ha uid
    rcases hkey a ha with hk | ⟨ha2, hk⟩
    · rw [hk]
    · rw [hk, ha2]
      unfold userInTeamB
      rw [hlead, hmems]
  refine ⟨?_, ?_, ?_, ?_, ?_, ?_⟩
  · show ((db.teams.map fun t => if t.id == team2.id then team2 else t).map
      Team.id).Nodup
    have hmap : (db.teams.map fun t =>
        if t.id == team2.id then team2 else t).map Team.id =
        db.teams.map Team.id := by
      rw [List.map_map]
      exact List.map_congr_left fun a ha => hidkeep a ha
    rw [hmap]
    exact hnd
  · intro t ht
    rcases List.mem_map.1 ht with ⟨a, ha, hfa⟩
    have := hidkeep a ha
    rw [hfa] at this
    show t.id < db.nextTeamId
    rw [this]
    exact hlt a ha
  · show (db.teams.map fun t => if t.id == team2.id then team2 else t).Pairwise
      TeamDisjoint
    rw [List.pairwise_map]
    refine hpw.imp_of_mem ?_
    intro a b ha hb hab
    intro uid h1
    rw [huser a ha uid] at h1
    rw [huser b hb uid]
    exact hab uid h1
  · intro t ht
    rcases List.mem_map.1 ht with ⟨a, ha, hfa⟩
    rcases hkey a ha with hk | ⟨ha2, hk⟩
    · rw [← hfa, hk]
      exact hsz a ha
    · rw [← hfa, hk]
      have hszt := hsz team hmem
      unfold SizeOk at hszt ⊢
      rw [hsize, hmems]
      exact hszt
  · intro t ht
    rcases List.mem_map.1 ht with ⟨a, ha, hfa⟩
    rcases hkey a ha with hk | ⟨ha2, hk⟩
    · rw [← hfa, hk]
      exact hpair a ha
    · rw [← hfa, hk]
      exact hsp
  · show (db.teams.map fun t => if t.id == team2.id then team2 else t).map
      Team.registrationNumber =
      (List.range (db.teams.map fun t =>
        if t.id == team2.id then team2 else t).length).map regNumberFor
    have hmap : (db.teams.map fun t =>
        if t.id == team2.id then team2 else t).map Team.registrationNumber =
        db.teams.map Team.registrationNumber := by
      rw [List.map_map]
      exact List.map_congr_left fun a ha => hregkeep a ha
    rw [hmap, List.length_map]
    exact hregs

/-- Registration preserves the invariant. -/
theorem inv_register {db : DB} (hInv : StoreInv db) (rid : Nat) (tn : String)
    (mems : List MemberIdent) (ps : String) (ts : TeamSize) :
    StoreInv (registerTeam db rid tn mems ps ts).2 := by
  rcases registerTeam_snd db rid tn mems ps ts with hsnd | ⟨team, hok, hsnd⟩
  · rw [hsnd]; exact hInv
  · obtain ⟨hid, hlead, hts, hst, hpay, hshot, hcld, hreg, hmlen, hszok,
      hreqfree, hfresh⟩ := registerTeam_ok hok
    obtain ⟨hnd, hlt, hpw, hsz, hpair, hregs⟩ := hInv
    rw [hsnd]
    refine ⟨?_, ?_, ?_, ?_, ?_, ?_⟩
    · show ((db.teams ++ [team]).map Team.id).Nodup
      rw [List.map_append]
      rw [List.nodup_append]
      refine ⟨hnd, by simp, ?_⟩
      intro x hx
      simp only [List.map_cons, List.map_nil, List.mem_singleton]
      intro hx2
      rcases List.mem_map.1 hx with ⟨a, ha, hfa⟩
      have h1 := hlt a ha
      rw [hfa, hx2, hid] at h1
      omega
    · intro t ht
      rcases List.mem_append.1 ht with ht | ht
      · have := hlt t ht
        simp only []
        omega
      · rw [List.mem_singleton.1 ht, hid]
        simp only []
        omega
    · show (db.teams ++ [team]).Pairwise TeamDisjoint
      rw [List.pairwise_append]
      refine ⟨hpw, by simp, ?_⟩
      intro a ha b hb
      rw [List.mem_singleton.1 hb]
      intro uid hua
      by_cases hub : userInTeamB team uid = true
      · have := hfresh uid hub a ha
        rw [this] at hua
        exact absurd hua (by simp)
      · simpa using hub
    · intro t ht
      rcases List.mem_append.1 ht with ht | ht
      · exact hsz t ht
      · rw [List.mem_singleton.1 ht]
        exact hszok
    · intro t ht
      rcases List.mem_append.1 ht with ht | ht
      · exact hpair t ht
      · rw [List.mem_singleton.1 ht]
        unfold ScreenshotPaired
        rw [hshot, hcld]
    · show (db.teams ++ [team]).map Team.registrationNumber =
        (List.range (db.teams ++ [team]).length).map regNumberFor
      rw [List.map_append, List.length_append]
      simp only [List.map_cons, List.map_nil, List.length_cons,
        List.length_nil]
      rw [List.range_succ, List.map_append]
      rw [hregs, hreg]
      simp

/-- Upload preserves the invariant. -/
theorem inv_upload {db : DB} (hInv : StoreInv db) (rid tid : Nat)
    (file : Option PaymentFile) (oc : Except Unit UploadResult) :
    StoreInv (uploadPayment db rid tid file oc).db := by
  rcases uploadPayment_cases db rid tid file oc with hsnd |
    ⟨team, r, hoc, hfind, hres, hsnd⟩
  · rw [hsnd]; exact hInv
  · rw [hsnd]
    exact inv_saveTeam hInv (List.mem_of_find?_eq_some hfind)
      rfl rfl rfl rfl rfl (by unfold ScreenshotPaired; simp)

/-- Admin payment-status update preserves the invariant. -/
theorem inv_setStatus {db : DB} (hInv : StoreInv db) (tid : Nat) (s : String) :
    StoreInv (setPaymentStatus db tid s).2 := by
  rcases setPaymentStatus_cases db tid s with hsnd |
    ⟨ps, team, hps, hfind, hres, hsnd⟩
  · rw [hsnd]; exact hInv
  · rw [hsnd]
    refine inv_saveTeam hInv (List.mem_of_find?_eq_some hfind)
      rfl rfl rfl rfl rfl ?_
    have := hInv.2.2.2.2.1 team (List.mem_of_find?_eq_some hfind)
    unfold ScreenshotPaired at this ⊢
    exact this

/-- One request against the store: a registration attempt, a
payment-proof upload attempt, or an admin payment-status update. -/
inductive Step : DB → DB → Prop where
  | register (db : DB) (rid : Nat) (tn : String) (mems : List MemberIdent)
      (ps : String) (ts : TeamSize) :
      Step db (registerTeam db rid tn mems ps ts).2
  | upload (db : DB) (rid tid : Nat) (file : Option PaymentFile)
      (oc : Except Unit UploadResult) :
      Step db (uploadPayment db rid tid file oc).db
  | setStatus (db : DB) (tid : Nat) (s : String) :
      Step db (setPaymentStatus db tid s).2

/-- Stores reachable from an empty team store by any request sequence. -/
inductive Reachable : DB → Prop where
  | init (users : List User) (nid : Nat) : Reachable ⟨users, [], nid⟩
  | step {db db2 : DB} : Reachable db → Step db db2 → Reachable db2

/-- The invariant holds in every reachable store. -/
theorem reachable_inv {db : DB} (h : Reachable db) : StoreInv db := by
  induction h with
  | init users nid => exact inv_init users nid
  | step _ hs ih =>
    cases hs with
    | register rid tn mems ps ts => exact inv_register ih rid tn mems ps ts
    | upload rid tid file oc => exact inv_upload ih rid tid file oc
    | setStatus tid s => exact inv_setStatus ih tid s

/-!
Further helper lemmas and shared concrete fixtures.
-/

/-- Inversion of a successful upload: the team was found with the
combined ownership filter, the Cloudinary pipeline succeeded, and the
saved team carries the new reference pair with pending status. -/
theorem uploadPayment_ok {db : DB} {rid tid : Nat}
    {file : Option PaymentFile} {oc : Except Unit UploadResult}
    {team2 : Team}
    (h : (uploadPayment db rid tid file oc).result = Except.ok team2) :
    ∃ f team r, file = some f ∧ oc = Except.ok r ∧
      db.teams.find? (fun t => t.id == tid &&
        (t.leader == rid || t.members.contains rid)) = some team ∧
      team2 = { team with
        paymentScreenshot := some r.url
        paymentScreenshotCloudinaryId := some r.cloudinaryId
        paymentStatus := PaymentStatus.pending } ∧
      (uploadPayment db rid tid file oc).db = saveTeam db team2 := by
  unfold uploadPayment at h ⊢
  cases file with
  | none => simp at h
  | some f =>
    cases hfind : db.teams.find? (fun t => t.id == tid &&
        (t.leader == rid || t.members.contains rid)) with
    | none => rw [hfind] at h; simp at h
    | some team =>
      rw [hfind] at h
      cases oc with
      | error e => simp at h
      | ok r =>
        simp only [Except.ok.injEq] at h
        subst h
        exact ⟨f, team, r, rfl, rfl, rfl, rfl, rfl⟩

/-- The admin status-string check fails exactly outside the enum. -/
theorem parsePaymentStatus_none_iff (s : String) :
    parsePaymentStatus s = none ↔
      ¬(s = "pending" ∨ s = "verified" ∨ s = "rejected") := by
  unfold parsePaymentStatus
  by_cases h1 : s = "pending"
  · simp [h1]
  · by_cases h2 : s = "verified"
    · simp [h1, h2]
    · by_cases h3 : s = "rejected"
      · simp [h1, h2, h3]
      · simp [h1, h2, h3]

/-- The three payment statuses partition the team list. -/
theorem statusCounts_partition (l : List Team) :
    (l.filter fun t => t.paymentStatus == PaymentStatus.verified).length +
    (l.filter fun t => t.paymentStatus == PaymentStatus.pending).length +
    (l.filter fun t => t.paymentStatus == PaymentStatus.rejected).length =
    l.length := by
  induction l with
  | nil => rfl
  | cons t l ih =>
    cases hst : t.paymentStatus <;>
      simp only [List.filter_cons, hst, beq_iff_eq, List.length_cons] <;>
      simp only [reduceCtorEq, if_false, if_true, List.length_cons] <;>
      omega

/-- Sample user, teams and stores used by concrete witnesses. -/
def sampleUser : User := ⟨1, "u1@hackbits.test", "R1"⟩

/-- A persisted team led by user 1 with no members and a verified
payment, used by concrete witnesses. -/
def sampleTeam : Team :=
  { id := 0
    teamName := "Falcons"
    leader := 1
    members := []
    problemStatement := "Smart Campus Navigation App"
    teamSize := TeamSize.Solo
    status := ApprovalStatus.pending
    registrationNumber := "TEAM0001"
    paymentScreenshot := none
    paymentScreenshotCloudinaryId := none
    paymentStatus := PaymentStatus.verified }

/-- Store holding sampleTeam only. -/
def sampleDB : DB := ⟨[sampleUser], [sampleTeam], 1⟩

/-- An uploaded screenshot file. -/
def sampleFile : PaymentFile := ⟨"proof.png", 204800⟩

/-- A successful Cloudinary upload result. -/
def sampleUpload : UploadResult :=
  ⟨"https://res.cloudinary.test/proof.webp",
   "hackathon/payment-proofs/team-0-1-ab", 204800, 51200⟩

/-!
Claim theorems.
-/

/-- C1: in every store reachable by any request sequence from an empty
team store, the persisted teams are pairwise user-disjoint, so every
user id appears as leader or member in at most one team; moreover a
registration succeeds only if none of the created team's users (the
requester and all resolved members) belonged to an existing team, and a
requester already on a team is rejected with a 400 conflict error and
no write. -/
theorem C1_userInAtMostOneTeam :
    (∀ db : DB, Reachable db → db.teams.Pairwise TeamDisjoint) ∧
    (∀ (db : DB) (rid : Nat) (tn : String) (mems : List MemberIdent)
      (ps : String) (ts : TeamSize) (team : Team),
      (registerTeam db rid tn mems ps ts).1 = Except.ok team →
      ∀ uid, userInTeamB team uid = true →
        ∀ t ∈ db.teams, userInTeamB t uid = false) ∧
    (∀ (db : DB) (rid : Nat) (tn : String) (mems : List MemberIdent)
      (ps : String) (ts : TeamSize),
      (∃ t ∈ db.teams, userInTeamB t rid = true) →
      ∃ e, registerTeam db rid tn mems ps ts = (Except.error e, db) ∧
        registerErrorHttpStatus e = 400) := by
  refine ⟨?_, ?_, ?_⟩
  · intro db h
    exact (reachable_inv h).2.2.1
  · intro db rid tn mems ps ts team hok
    obtain ⟨_, _, _, _, _, _, _, _, _, _, _, hfresh⟩ := registerTeam_ok hok
    exact hfresh
  · rintro db rid tn mems ps ts ⟨t, ht, hu⟩
    cases hres : (registerTeam db rid tn mems ps ts).1 with
    | ok team =>
      exfalso
      obtain ⟨_, hlead, _, _, _, _, _, _, _, _, _, hfresh⟩ :=
        registerTeam_ok hres
      have hself : userInTeamB team rid = true := by
        unfold userInTeamB
        rw [hlead]
        simp
      have hfalse := hfresh rid hself t ht
      rw [hfalse] at hu
      exact absurd hu (by simp)
    | error e =>
      refine ⟨e, ?_, rfl⟩
      have hsnd : (registerTeam db rid tn mems ps ts).2 = db := by
        rcases registerTeam_snd db rid tn mems ps ts with hs | ⟨team, hok, _⟩
        · exact hs
        · rw [hres] at hok
          exact absurd hok (by simp)
      exact Prod.ext hres hsnd

/-- The team created by a Solo registration of user 1 on an empty store. -/
def sampleSoloTeam : Team :=
  { id := 0
    teamName := "Falcons"
    leader := 1
    members := []
    problemStatement := "PS"
    teamSize := TeamSize.Solo
    status := ApprovalStatus.pending
    registrationNumber := "TEAM0001"
    paymentScreenshot := none
    paymentScreenshotCloudinaryId := none
    paymentStatus := PaymentStatus.pending }

/-- Concrete instantiation of C1: a store reached by one successful
registration is pairwise user-disjoint; the created team's users were
teamless before; and re-registration by the same leader is rejected
with a 400 error and no write. -/
theorem C1_userInAtMostOneTeam_witness :
    ((registerTeam ⟨[sampleUser], [], 0⟩ 1 "Falcons" [] "PS"
        TeamSize.Solo).2).teams.Pairwise TeamDisjoint ∧
    (∀ uid, userInTeamB sampleSoloTeam uid = true →
      ∀ t ∈ (⟨[sampleUser], [], 0⟩ : DB).teams, userInTeamB t uid = false) ∧
    (∃ e, registerTeam sampleDB 1 "Eagles" [] "PS" TeamSize.Solo =
      (Except.error e, sampleDB) ∧ registerErrorHttpStatus e = 400) := by
  refine ⟨?_, ?_, ?_⟩
  · exact C1_userInAtMostOneTeam.1 _
      (Reachable.step (Reachable.init [sampleUser] 0)
        (Step.register _ 1 "Falcons" [] "PS" TeamSize.Solo))
  · exact C1_userInAtMostOneTeam.2.1 ⟨[sampleUser], [], 0⟩ 1 "Falcons" []
      "PS" TeamSize.Solo sampleSoloTeam (by decide)
  · exact C1_userInAtMostOneTeam.2.2 sampleDB 1 "Eagles" [] "PS"
      TeamSize.Solo ⟨sampleTeam, by decide, by decide⟩

/-- C2: whenever upload-payment succeeds, the returned team record has
paymentStatus pending and is exactly what was persisted, whatever the
prior status of the team was. -/
theorem C2_uploadResetsPending (db : DB) (rid tid : Nat)
    (file : Option PaymentFile) (oc : Except Unit UploadResult)
    (team2 : Team)
    (h : (uploadPayment db rid tid file oc).result = Except.ok team2) :
    team2.paymentStatus = PaymentStatus.pending ∧
    team2 ∈ (uploadPayment db rid tid file oc).db.teams := by
  obtain ⟨f, team, r, hfile, hoc, hfind, hteam2, hdb⟩ := uploadPayment_ok h
  constructor
  · rw [hteam2]
  · rw [hdb]
    unfold saveTeam
    have hmem := List.mem_of_find?_eq_some hfind
    have hfx : (fun t => if t.id == team2.id then team2 else t) team = team2 := by
      rw [hteam2]
      simp
    have hx := List.mem_map_of_mem
      (fun t => if t.id == team2.id then team2 else t) hmem
    rw [hfx] at hx
    exact hx

/-- The stored sampleTeam after a successful proof upload. -/
def sampleUploadedTeam : Team :=
  { sampleTeam with
    paymentScreenshot := some sampleUpload.url
    paymentScreenshotCloudinaryId := some sampleUpload.cloudinaryId
    paymentStatus := PaymentStatus.pending }

/-- Concrete instantiation of C2: uploading a new proof for a team whose
payment was already verified resets it to pending in the store. -/
theorem C2_uploadResetsPending_witness :
    sampleTeam.paymentStatus = PaymentStatus.verified ∧
    sampleUploadedTeam.paymentStatus = PaymentStatus.pending ∧
    sampleUploadedTeam ∈ (uploadPayment sampleDB 1 0 (some sampleFile)
      (Except.ok sampleUpload)).db.teams := by
  refine ⟨by decide, ?_, ?_⟩
  · exact (C2_uploadResetsPending sampleDB 1 0 (some sampleFile)
      (Except.ok sampleUpload) sampleUploadedTeam (by decide)).1
  · exact (C2_uploadResetsPending sampleDB 1 0 (some sampleFile)
      (Except.ok sampleUpload) sampleUploadedTeam (by decide)).2

/-- Store with a single registered user for the C10 scenario. -/
def c10DB : DB := ⟨[sampleUser], [], 0⟩

/-- Team created when the requester lists itself as the Duo member. -/
def c10Team : Team :=
  { id := 0
    teamName := "Selfies"
    leader := 1
    members := [1]
    problemStatement := "PS"
    teamSize := TeamSize.Duo
    status := ApprovalStatus.pending
    registrationNumber := "TEAM0001"
    paymentScreenshot := none
    paymentScreenshotCloudinaryId := none
    paymentStatus := PaymentStatus.pending }

/-- C10: registerTeam accepts the requester listed among the member
identifiers: with the requester's own email and registration number as
the single Duo member entry, every precondition check passes and the
created team's leader id also occurs in its member list. -/
theorem C10_requesterAsMemberAccepted :
    (registerTeam c10DB 1 "Selfies" [⟨"u1@hackbits.test", "R1"⟩] "PS"
      TeamSize.Duo).1 = Except.ok c10Team ∧
    c10Team.leader = 1 ∧ c10Team.leader ∈ c10Team.members := by
  decide

/-- C3 counterexample: with team 0 led by user 1, an upload attempt by
user 2 (neither leader nor member) produces exactly the same error as
an upload against the nonexistent team 99 — one combined 404 with one
message — so the AuthorizationError is not distinct from the
NotFoundError; the store is unchanged in both cases. -/
theorem C3_counterexample :
    (uploadPayment sampleDB 2 0 (some sampleFile)
      (Except.ok sampleUpload)).result =
      Except.error UploadError.notFoundOrUnauthorized ∧
    (uploadPayment sampleDB 2 99 (some sampleFile)
      (Except.ok sampleUpload)).result =
      Except.error UploadError.notFoundOrUnauthorized ∧
    (uploadPayment sampleDB 2 0 (some sampleFile)
      (Except.ok sampleUpload)).result =
      (uploadPayment sampleDB 2 99 (some sampleFile)
        (Except.ok sampleUpload)).result ∧
    uploadErrorHttpStatus UploadError.notFoundOrUnauthorized = 404 ∧
    uploadErrorMessage UploadError.notFoundOrUnauthorized =
      "Team not found or you are not authorized" ∧
    (uploadPayment sampleDB 2 0 (some sampleFile)
      (Except.ok sampleUpload)).db = sampleDB ∧
    (uploadPayment sampleDB 2 99 (some sampleFile)
      (Except.ok sampleUpload)).db = sampleDB := by
  decide

/-- C3 (amended): when upload-payment is invoked by a requester who is
neither the leader nor a member of any team with the target id, the
operation fails with the same combined 404 "Team not found or you are
not authorized" error that is returned when the team does not exist
(the route uses one lookup and does not distinguish the two cases),
and the store is unchanged. -/
theorem C3_unauthorizedUploadRejected (db : DB) (rid tid : Nat)
    (f : PaymentFile) (oc : Except Unit UploadResult)
    (hnotmine : ∀ t ∈ db.teams, t.id = tid →
      t.leader ≠ rid ∧ rid ∉ t.members) :
    uploadPayment db rid tid (some f) oc =
      ⟨Except.error UploadError.notFoundOrUnauthorized, db, []⟩ ∧
    uploadErrorHttpStatus UploadError.notFoundOrUnauthorized = 404 := by
  have hfind : db.teams.find? (fun t => t.id == tid &&
      (t.leader == rid || t.members.contains rid)) = none := by
    rw [List.find?_eq_none]
    intro t ht
    by_cases hid : t.id = tid
    · obtain ⟨h1, h2⟩ := hnotmine t ht hid
      simp [hid, h1, h2, List.contains, List.elem_eq_mem]
    · simp [hid]
  constructor
  · unfold uploadPayment
    rw [hfind]
  · rfl

/-- Concrete instantiation of the amended C3: user 2 uploading for
team 0 (led by user 1) gets the combined 404 and no state change. -/
theorem C3_unauthorizedUploadRejected_witness :
    uploadPayment sampleDB 2 0 (some sampleFile) (Except.ok sampleUpload) =
      ⟨Except.error UploadError.notFoundOrUnauthorized, sampleDB, []⟩ ∧
    uploadErrorHttpStatus UploadError.notFoundOrUnauthorized = 404 :=
  C3_unauthorizedUploadRejected sampleDB 2 0 sampleFile
    (Except.ok sampleUpload) (by decide)

/-- C4: member-count violations of the declared size class are rejected
with three distinct 400 validation errors before any write — Solo with
any member, Duo without exactly one, Team outside 2..4 — no violating
request ever creates a team, and in every reachable store every
persisted team satisfies its size-class bound. -/
theorem C4_sizeClassValidation :
    (∀ (db : DB) (rid : Nat) (tn : String) (mems : List MemberIdent)
      (ps : String),
      ¬(db.teams.any fun t => t.teamName == tn) = true →
      ¬(db.teams.any fun t => userInTeamB t rid) = true →
      (0 < mems.length →
        registerTeam db rid tn mems ps TeamSize.Solo =
          (Except.error RegisterError.soloExtraMembers, db)) ∧
      (mems.length ≠ 1 →
        registerTeam db rid tn mems ps TeamSize.Duo =
          (Except.error RegisterError.duoMemberCount, db)) ∧
      (mems.length < 2 ∨ 4 < mems.length →
        registerTeam db rid tn mems ps TeamSize.Team =
          (Except.error RegisterError.teamMemberCount, db))) ∧
    (∀ (db : DB) (rid : Nat) (tn : String) (mems : List MemberIdent)
      (ps : String) (ts : TeamSize),
      ((ts = TeamSize.Solo ∧ 0 < mems.length) ∨
       (ts = TeamSize.Duo ∧ mems.length ≠ 1) ∨
       (ts = TeamSize.Team ∧ (mems.length < 2 ∨ 4 < mems.length))) →
      (∀ team, (registerTeam db rid tn mems ps ts).1 ≠ Except.ok team) ∧
      (registerTeam db rid tn mems ps ts).2 = db) ∧
    (registerErrorMessage RegisterError.soloExtraMembers ≠
      registerErrorMessage RegisterError.duoMemberCount ∧
     registerErrorMessage RegisterError.soloExtraMembers ≠
      registerErrorMessage RegisterError.teamMemberCount ∧
     registerErrorMessage RegisterError.duoMemberCount ≠
      registerErrorMessage RegisterError.teamMemberCount) ∧
    (∀ db : DB, Reachable db → ∀ t ∈ db.teams, SizeOk t) := by
  refine ⟨?_, ?_, by decide, ?_⟩
  · intro db rid tn mems ps hname hreq
    refine ⟨?_, ?_, ?_⟩
    · intro hpos
      unfold registerTeam
      rw [if_neg hname, if_neg hreq, if_pos ⟨rfl, hpos⟩]
    · intro hne
      unfold registerTeam
      rw [if_neg hname, if_neg hreq, if_neg (by simp), if_pos ⟨rfl, hne⟩]
    · intro hout
      unfold registerTeam
      rw [if_neg hname, if_neg hreq, if_neg (by simp), if_neg (by simp),
        if_pos ⟨rfl, hout⟩]
  · intro db rid tn mems ps ts hviol
    have hnotok : ∀ team,
        (registerTeam db rid tn mems ps ts).1 ≠ Except.ok team := by
      intro team hok
      obtain ⟨_, _, hts, _, _, _, _, _, hmlen, hszok, _, _⟩ :=
        registerTeam_ok hok
      rcases hviol with ⟨hts2, hv⟩ | ⟨hts2, hv⟩ | ⟨hts2, hv⟩
      · have := hszok.1 (by rw [hts, hts2])
        omega
      · have := hszok.2.1 (by rw [hts, hts2])
        omega
      · have := hszok.2.2 (by rw [hts, hts2])
        omega
    refine ⟨hnotok, ?_⟩
    rcases registerTeam_snd db rid tn mems ps ts with hs | ⟨team, hok, _⟩
    · exact hs
    · exact absurd hok (hnotok team)
  · intro db h
    exact (reachable_inv h).2.2.2.1

/-- Concrete instantiation of C4: on an empty store, a Solo request
with one member, a Duo request with no member, and a Team request with
one member are each rejected with their own error and no write. -/
theorem C4_sizeClassValidation_witness :
    (registerTeam ⟨[], [], 0⟩ 1 "A" [⟨"m@x", "R9"⟩] "PS" TeamSize.Solo =
      (Except.error RegisterError.soloExtraMembers, ⟨[], [], 0⟩)) ∧
    (registerTeam ⟨[], [], 0⟩ 1 "A" [] "PS" TeamSize.Duo =
      (Except.error RegisterError.duoMemberCount, ⟨[], [], 0⟩)) ∧
    (registerTeam ⟨[], [], 0⟩ 1 "A" [⟨"m@x", "R9"⟩] "PS" TeamSize.Team =
      (Except.error RegisterError.teamMemberCount, ⟨[], [], 0⟩)) ∧
    (∀ t ∈ (⟨[], [], 0⟩ : DB).teams, SizeOk t) := by
  refine ⟨?_, ?_, ?_, ?_⟩
  · exact ((C4_sizeClassValidation.1 ⟨[], [], 0⟩ 1 "A" [⟨"m@x", "R9"⟩] "PS"
      (by decide) (by decide)).1 (by decide))
  · exact ((C4_sizeClassValidation.1 ⟨[], [], 0⟩ 1 "A" [] "PS"
      (by decide) (by decide)).2.1 (by decide))
  · exact ((C4_sizeClassValidation.1 ⟨[], [], 0⟩ 1 "A" [⟨"m@x", "R9"⟩] "PS"
      (by decide) (by decide)).2.2 (by decide))
  · exact C4_sizeClassValidation.2.2.2 ⟨[], [], 0⟩ (Reachable.init [] 0)

/-- C5: a successful registration allocates the registration number
TEAM followed by String(teamCount + 1).padStart(4, "0") — TEAM0001 on
an empty store — and in every reachable store the registration numbers
of the persisted teams are pairwise distinct. -/
theorem C5_registrationNumbers :
    (∀ (db : DB) (rid : Nat) (tn : String) (mems : List MemberIdent)
      (ps : String) (ts : TeamSize) (team : Team),
      (registerTeam db rid tn mems ps ts).1 = Except.ok team →
      team.registrationNumber =
        "TEAM" ++ padStart (toString (db.teams.length + 1)) 4 '0' ∧
      (db.teams = [] → team.registrationNumber = "TEAM0001")) ∧
    (∀ db : DB, Reachable db →
      (db.teams.map Team.registrationNumber).Nodup) := by
  constructor
  · intro db rid tn mems ps ts team hok
    obtain ⟨_, _, _, _, _, _, _, hreg, _⟩ := registerTeam_ok hok
    refine ⟨hreg, ?_⟩
    intro hempty
    rw [hreg, hempty]
    decide
  · intro db h
    have hregs := (reachable_inv h).2.2.2.2.2
    rw [hregs]
    exact List.Nodup.map regNumberFor_inj (List.nodup_range _)

/-- Concrete instantiation of C5: the first registration on an empty
store yields TEAM0001, and the store after two registrations has
pairwise distinct registration numbers. -/
theorem C5_registrationNumbers_witness :
    sampleSoloTeam.registrationNumber = "TEAM0001" ∧
    (((registerTeam (registerTeam ⟨[sampleUser], [], 0⟩ 1 "Falcons" [] "PS"
        TeamSize.Solo).2 2 "Eagles" [] "PS" TeamSize.Solo).2).teams.map
      Team.registrationNumber).Nodup := by
  constructor
  · exact (C5_registrationNumbers.1 ⟨[sampleUser], [], 0⟩ 1 "Falcons" []
      "PS" TeamSize.Solo sampleSoloTeam (by decide)).2 (by decide)
  · exact C5_registrationNumbers.2 _
      (Reachable.step
        (Reachable.step (Reachable.init [sampleUser] 0)
          (Step.register _ 1 "Falcons" [] "PS" TeamSize.Solo))
        (Step.register _ 2 "Eagles" [] "PS" TeamSize.Solo))

/-- C6: if the Cloudinary compression/upload pipeline fails during an
upload for a team the requester owns, the whole operation fails with
the 500 error and the store is returned unchanged — the team keeps its
previous paymentScreenshot, paymentScreenshotCloudinaryId and
paymentStatus — even though deletion of the previously stored image
(when present) was already requested. -/
theorem C6_uploadFailureAtomic (db : DB) (rid tid : Nat) (f : PaymentFile)
    (team : Team)
    (hfind : db.teams.find? (fun t => t.id == tid &&
      (t.leader == rid || t.members.contains rid)) = some team) :
    uploadPayment db rid tid (some f) (Except.error ()) =
      ⟨Except.error UploadError.uploadFailed, db,
        match team.paymentScreenshotCloudinaryId with
        | some oldId => [oldId]
        | none => []⟩ ∧
    uploadErrorHttpStatus UploadError.uploadFailed = 500 := by
  constructor
  · unfold uploadPayment
    rw [hfind]
  · rfl

/-- Store whose single team already carries an uploaded proof. -/
def sampleDB2 : DB := ⟨[sampleUser], [sampleUploadedTeam], 1⟩

/-- Concrete instantiation of C6: a failing upload for the team that
already has a proof leaves the store unchanged while the old handle's
deletion was requested. -/
theorem C6_uploadFailureAtomic_witness :
    uploadPayment sampleDB2 1 0 (some sampleFile) (Except.error ()) =
      ⟨Except.error UploadError.uploadFailed, sampleDB2,
        [sampleUpload.cloudinaryId]⟩ ∧
    uploadErrorHttpStatus UploadError.uploadFailed = 500 :=
  C6_uploadFailureAtomic sampleDB2 1 0 sampleFile sampleUploadedTeam
    (by decide)

/-- A status string that parses is one of the three enum strings. -/
theorem parsePaymentStatus_some_mem {s : String} {ps : PaymentStatus}
    (h : parsePaymentStatus s = some ps) :
    s = "pending" ∨ s = "verified" ∨ s = "rejected" := by
  by_contra hc
  rw [(parsePaymentStatus_none_iff s).2 hc] at h
  simp at h

/-- C7: the admin payment-status update fails with the 400 validation
error exactly when the requested status is outside
{pending, verified, rejected} (the check runs before the team lookup,
so an invalid status never touches the store), and for any status in
the set and any existing team it persists the new status
unconditionally, whatever the prior status was. -/
theorem C7_setPaymentStatusValidation :
    (∀ (db : DB) (tid : Nat) (s : String),
      ((setPaymentStatus db tid s).1 =
          Except.error AdminError.invalidStatus ↔
        ¬(s = "pending" ∨ s = "verified" ∨ s = "rejected")) ∧
      (¬(s = "pending" ∨ s = "verified" ∨ s = "rejected") →
        setPaymentStatus db tid s =
          (Except.error AdminError.invalidStatus, db)) ∧
      adminErrorHttpStatus AdminError.invalidStatus = 400) ∧
    (∀ (db : DB) (tid : Nat) (s : String) (ps : PaymentStatus),
      parsePaymentStatus s = some ps →
      (∃ t ∈ db.teams, t.id = tid) →
      ∃ team2, (setPaymentStatus db tid s).1 = Except.ok team2 ∧
        team2.paymentStatus = ps ∧
        team2 ∈ (setPaymentStatus db tid s).2.teams) := by
  constructor
  · intro db tid s
    cases hps : parsePaymentStatus s with
    | none =>
      have hnotmem := (parsePaymentStatus_none_iff s).1 hps
      refine ⟨?_, ?_, rfl⟩
      · unfold setPaymentStatus
        rw [hps]
        simpa using hnotmem
      · intro _
        unfold setPaymentStatus
        rw [hps]
    | some ps =>
      have hmem := parsePaymentStatus_some_mem hps
      refine ⟨?_, ?_, rfl⟩
      · unfold setPaymentStatus
        rw [hps]
        cases hfind : db.teams.find? (fun t => t.id == tid) with
        | none => simp [hmem]
        | some team => simp [hmem]
      · intro hno
        exact absurd hmem hno
  · rintro db tid s ps hps ⟨t, ht, htid⟩
    have hsome : (db.teams.find? (fun t2 => t2.id == tid)).isSome := by
      rw [List.find?_isSome]
      exact ⟨t, ht, by simp [htid]⟩
    obtain ⟨team, hfind⟩ := Option.isSome_iff_exists.1 hsome
    refine ⟨{ team with paymentStatus := ps }, ?_, rfl, ?_⟩
    · unfold setPaymentStatus
      rw [hps, hfind]
    · unfold setPaymentStatus
      rw [hps, hfind]
      show { team with paymentStatus := ps } ∈
        (saveTeam db { team with paymentStatus := ps }).teams
      unfold saveTeam
      have hmem2 := List.mem_of_find?_eq_some hfind
      have hfx : (fun t2 => if t2.id ==
          ({ team with paymentStatus := ps } : Team).id then
          { team with paymentStatus := ps } else t2) team =
          { team with paymentStatus := ps } := by
        simp
      have hx := List.mem_map_of_mem (fun t2 => if t2.id ==
          ({ team with paymentStatus := ps } : Team).id then
          { team with paymentStatus := ps } else t2) hmem2
      rw [hfx] at hx
      exact hx

/-- Concrete instantiation of C7: an unknown status string is rejected
with the 400 validation error and no write, while "rejected" is
persisted over the prior verified status of the sample team. -/
theorem C7_setPaymentStatusValidation_witness :
    setPaymentStatus sampleDB 0 "approved" =
      (Except.error AdminError.invalidStatus, sampleDB) ∧
    (∃ team2, (setPaymentStatus sampleDB 0 "rejected").1 =
        Except.ok team2 ∧
      team2.paymentStatus = PaymentStatus.rejected ∧
      team2 ∈ (setPaymentStatus sampleDB 0 "rejected").2.teams) := by
  constructor
  · exact (C7_setPaymentStatusValidation.1 sampleDB 0 "approved").2.1
      (by decide)
  · exact C7_setPaymentStatusValidation.2 sampleDB 0 "rejected"
      PaymentStatus.rejected (by decide) ⟨sampleTeam, by decide, by decide⟩

/-- C8: computeStats reports the total team count, the per-status
counts (which partition the teams), the total user count, and a
verification rate in tenths of a percent equal to
round(verified * 1000 / total), defined as 0 when there are no teams
and equal to 100.0 percent when the single stored team is verified. -/
theorem C8_computeStats (db : DB) :
    (computeStats db).totalTeams = db.teams.length ∧
    (computeStats db).verifiedPayments = (db.teams.filter fun t =>
      t.paymentStatus == PaymentStatus.verified).length ∧
    (computeStats db).pendingPayments = (db.teams.filter fun t =>
      t.paymentStatus == PaymentStatus.pending).length ∧
    (computeStats db).rejectedPayments = (db.teams.filter fun t =>
      t.paymentStatus == PaymentStatus.rejected).length ∧
    (computeStats db).verifiedPayments + (computeStats db).pendingPayments +
      (computeStats db).rejectedPayments = (computeStats db).totalTeams ∧
    (computeStats db).totalUsers = db.users.length ∧
    (db.teams.length = 0 →
      (computeStats db).paymentVerificationRateTenths = 0) ∧
    (0 < db.teams.length →
      (computeStats db).paymentVerificationRateTenths =
        round ((((db.teams.filter fun t =>
          t.paymentStatus == PaymentStatus.verified).length * 1000 : ℚ)) /
          db.teams.length)) ∧
    ((∀ t ∈ db.teams, t.paymentStatus = PaymentStatus.verified) →
      db.teams.length = 1 →
      (computeStats db).paymentVerificationRateTenths = 1000) := by
  refine ⟨rfl, rfl, rfl, rfl, statusCounts_partition db.teams, rfl,
    ?_, ?_, ?_⟩
  · intro h0
    simp [computeStats, h0]
  · intro hpos
    simp only [computeStats]
    rw [if_pos hpos]
  · intro hall h1
    have hfilter : (db.teams.filter fun t =>
        t.paymentStatus == PaymentStatus.verified) = db.teams :=
      List.filter_eq_self.mpr fun a ha => by simp [hall a ha]
    simp only [computeStats]
    rw [if_pos (by omega : 0 < db.teams.length), hfilter, h1]
    norm_num [round_eq]

/-- Concrete instantiation of C8: one stored verified team gives a
100.0 percent rate, and an empty store gives rate 0. -/
theorem C8_computeStats_witness :
    (computeStats sampleDB).totalTeams = 1 ∧
    (computeStats sampleDB).verifiedPayments = 1 ∧
    (computeStats sampleDB).paymentVerificationRateTenths = 1000 ∧
    (computeStats ⟨[], [], 0⟩).paymentVerificationRateTenths = 0 := by
  refine ⟨by decide, by decide, ?_, ?_⟩
  · exact (C8_computeStats sampleDB).2.2.2.2.2.2.2.2 (by decide) (by decide)
  · exact (C8_computeStats ⟨[], [], 0⟩).2.2.2.2.2.2.1 (by decide)

/-- C9: in every reachable store each team has paymentScreenshot and
paymentScreenshotCloudinaryId either both null or both set — a team is
created with both null, and a successful proof upload assigns both in
the same update. -/
theorem C9_screenshotFieldsPaired :
    (∀ db : DB, Reachable db → ∀ t ∈ db.teams,
      (t.paymentScreenshot = none ↔
        t.paymentScreenshotCloudinaryId = none)) ∧
    (∀ (db : DB) (rid : Nat) (tn : String) (mems : List MemberIdent)
      (ps : String) (ts : TeamSize) (team : Team),
      (registerTeam db rid tn mems ps ts).1 = Except.ok team →
      team.paymentScreenshot = none ∧
      team.paymentScreenshotCloudinaryId = none) ∧
    (∀ (db : DB) (rid tid : Nat) (file : Option PaymentFile)
      (oc : Except Unit UploadResult) (team2 : Team),
      (uploadPayment db rid tid file oc).result = Except.ok team2 →
      ∃ u c, team2.paymentScreenshot = some u ∧
        team2.paymentScreenshotCloudinaryId = some c) := by
  refine ⟨?_, ?_, ?_⟩
  · intro db h t ht
    exact (reachable_inv h).2.2.2.2.1 t ht
  · intro db rid tn mems ps ts team hok
    obtain ⟨_, _, _, _, _, hshot, hcld, _⟩ := registerTeam_ok hok
    exact ⟨hshot, hcld⟩
  · intro db rid tid file oc team2 h
    obtain ⟨f, team, r, _, _, _, hteam2, _⟩ := uploadPayment_ok h
    exact ⟨r.url, r.cloudinaryId, by rw [hteam2], by rw [hteam2]⟩

/-- Concrete instantiation of C9: after a registration followed by a
proof upload the pairing holds for every stored team; the created team
has both fields null; the uploaded team has both fields set. -/
theorem C9_screenshotFieldsPaired_witness :
    (∀ t ∈ ((uploadPayment (registerTeam ⟨[sampleUser], [], 0⟩ 1 "Falcons"
        [] "PS" TeamSize.Solo).2 1 0 (some sampleFile)
        (Except.ok sampleUpload)).db).teams,
      (t.paymentScreenshot = none ↔
        t.paymentScreenshotCloudinaryId = none)) ∧
    (sampleSoloTeam.paymentScreenshot = none ∧
      sampleSoloTeam.paymentScreenshotCloudinaryId = none) ∧
    (∃ u c, sampleUploadedTeam.paymentScreenshot = some u ∧
      sampleUploadedTeam.paymentScreenshotCloudinaryId = some c) := by
  refine ⟨?_, ?_, ?_⟩
  · exact C9_screenshotFieldsPaired.1 _
      (Reachable.step
        (Reachable.step (Reachable.init [sampleUser] 0)
          (Step.register _ 1 "Falcons" [] "PS" TeamSize.Solo))
        (Step.upload _ 1 0 (some sampleFile) (Except.ok sampleUpload)))
  · exact C9_screenshotFieldsPaired.2.1 ⟨[sampleUser], [], 0⟩ 1 "Falcons"
      [] "PS" TeamSize.Solo sampleSoloTeam (by decide)
  · exact C9_screenshotFieldsPaired.2.2 sampleDB 1 0 (some sampleFile)
      (Except.ok sampleUpload) sampleUploadedTeam (by decide)
